import Mathlib

/-!
Verification development for a small e-commerce backend (Express/Mongoose).

The repository exposes a single router over three document collections
(Users, Products, Orders).  This file gives a shallow embedding of the
data model and of the route handlers that the verified properties are
about, translated from `src/models/user.js` (the router plus the User and
Product schemas) and `src/unnamed/part_000` (the Order schema).

Modelling conventions:
* Document ids (`ObjectId`) are natural numbers; freshly created documents
  receive the next counter value of their collection.
* JS numbers are rationals (`ℚ`); timestamps (`Date`) are naturals and are
  threaded in explicitly where a handler writes `new Date()`.
* A request-body field that may be absent is an `Option`; JS truthiness
  checks (`!x`) are modelled by dedicated `…Truthy` functions (`""` and `0`
  are falsy).
* A collection is an association list `List (ObjId × α)`.
  `findByIdAndUpdate` on a missing id is a no-op returning `null`, as in
  Mongoose, so updates are total functions on the list.
* Mongoose strips `undefined` values from update documents, so a partial
  update (`router.put "/update/:id"`, profile update, tracking update)
  only touches the supplied fields.
* `document.save()` runs schema validators; the Order schema requires each
  item quantity ≥ 1 and a payment method from the schema enum, which is
  modelled by `orderSaveOk`.  Update validators do not run on
  `findByIdAndUpdate` (Mongoose default), so e.g. an arbitrary tracking
  status string is written as-is.
* Each handler returns `Except Err α × St`: the response (success payload
  or the error response the route sends) together with the store state
  after the handler ran — including states left behind by mid-loop
  failures, which is what the partial-failure properties are about.
Error constructors follow the spec's taxonomy (`ValidationError` = 400
input check, `ConflictError` = insufficient stock / delivered-cancel /
duplicate email, `AuthError`, `ForbiddenError` = 403, `NotFoundError` =
404, `InternalError` = 500); messages are the literal strings from the
source.
-/

namespace Shop

abbrev ObjId := Nat

structure CartItem where
  productId : ObjId
  quantity : ℚ
deriving DecidableEq

structure User where
  name : String
  email : String
  password : String
  role : String
  phone : String
  address : String
  cart : List CartItem
deriving DecidableEq

structure Review where
  userId : ObjId
  userName : String
  rating : ℚ
  comment : Option String
deriving DecidableEq

structure Product where
  name : String
  price : ℚ
  description : Option String
  category : Option String
  stock : ℚ
  assignedAdmin : Option ObjId
  reviews : List Review
  averageRating : ℚ
  totalReviews : Nat
deriving DecidableEq

structure OrderItem where
  productId : ObjId
  productName : String
  quantity : ℚ
  price : ℚ
  subtotal : ℚ
deriving DecidableEq

structure Tracking where
  status : String
  location : String
  estimatedDelivery : Option String
  updatedAt : Nat
deriving DecidableEq

structure Order where
  userId : ObjId
  items : List OrderItem
  totalAmount : ℚ
  deliveryAddress : String
  paymentMethod : String
  paymentStatus : String
  orderStatus : String
  deliveryTracking : Tracking
deriving DecidableEq

/-- The document store: the three collections plus fresh-id counters. -/
structure St where
  users : List (ObjId × User)
  products : List (ObjId × Product)
  orders : List (ObjId × Order)
  nextUserId : ObjId
  nextProductId : ObjId
  nextOrderId : ObjId
deriving DecidableEq

def St.init : St := ⟨[], [], [], 0, 0, 0⟩

/-- Error responses, following the spec's error taxonomy; the payload is
the literal `message` string the route sends. -/
inductive Err where
  | validation : String → Err
  | authErr : String → Err
  | forbidden : String → Err
  | notFound : String → Err
  | conflict : String → Err
  | internal : String → Err
deriving DecidableEq

deriving instance DecidableEq for Except

/-- `findById` on an association-list collection. -/
def lookupA {α : Type} : List (ObjId × α) → ObjId → Option α
  | [], _ => none
  | e :: rest, i => if e.1 = i then some e.2 else lookupA rest i

/-- `findByIdAndUpdate`: rewrite the document(s) stored under `i`;
a no-op when `i` is absent, as in Mongoose. -/
def updAssoc {α : Type} (l : List (ObjId × α)) (i : ObjId) (f : α → α) :
    List (ObjId × α) :=
  l.map (fun e => if e.1 = i then (e.1, f e.2) else e)

/-- JS truthiness of an optional string (`""` is falsy). -/
def strTruthy : Option String → Bool
  | none => false
  | some s => s != ""

/-- JS truthiness of an optional number (`0` is falsy). -/
def numTruthy : Option ℚ → Bool
  | none => false
  | some q => q != 0

/-- JS truthiness of an optional id. -/
def idTruthy : Option ObjId → Bool
  | none => false
  | some _ => true

/-- `router.post "/signup"`.  `hash` is the bcrypt collaborator. -/
def signup (hash : String → String) (st : St)
    (name email password phone role : Option String) : Except Err User × St :=
  if ¬ (strTruthy name && strTruthy password && strTruthy email) then
    (.error (.validation "Name, email and password are required"), st)
  else
    match name, email, password with
    | some n, some e, some pw =>
      let userRole := match role with
        | some r => if r = "admin" ∨ r = "user" then r else "user"
        | none => "user"
      if (st.users.find? (fun x => x.2.email == e)).isSome then
        (.error (.conflict "User with this email already exists"), st)
      else
        let u : User := ⟨n, e, hash pw, userRole, phone.getD "", "", []⟩
        (.ok u, { st with users := st.users ++ [(st.nextUserId, u)],
                          nextUserId := st.nextUserId + 1 })
    | _, _, _ => (.error (.validation "Name, email and password are required"), st)

/-- `router.post "/login"`.  `compare` is `bcrypt.compare`; on success the
issued token carries `{id, role}`, modelled by returning that pair. -/
def login (compare : String → String → Bool) (st : St)
    (email password : String) : Except Err (ObjId × String) :=
  match st.users.find? (fun x => x.2.email == email) with
  | none => .error (.authErr "Invalid credentials")
  | some x =>
    if compare password x.2.password then .ok (x.1, x.2.role)
    else .error (.authErr "Invalid credentials")

/-- `router.put "/profile/update"`: partial update of the supplied fields
(Mongoose strips `undefined` values from the update). -/
def updateProfile (st : St) (userId : ObjId)
    (name email phone address : Option String) : Except Err User × St :=
  match lookupA st.users userId with
  | none => (.error (.notFound "User not found"), st)
  | some u =>
    let u' : User := { u with name := name.getD u.name, email := email.getD u.email,
                              phone := phone.getD u.phone,
                              address := address.getD u.address }
    (.ok u', { st with users := updAssoc st.users userId (fun _ => u') })

/-- `router.post "/add"` (admin): create a product; `stock` defaults to 0
per the Product schema. -/
def addProduct (st : St) (name : Option String) (price : Option ℚ)
    (description category : Option String) (stock : Option ℚ) :
    Except Err Product × St :=
  if ¬ (strTruthy name && numTruthy price) then
    (.error (.validation "Name and price are required"), st)
  else
    match name, price with
    | some n, some pr =>
      let p : Product := ⟨n, pr, description, category, stock.getD 0, none, [], 0, 0⟩
      (.ok p, { st with products := st.products ++ [(st.nextProductId, p)],
                        nextProductId := st.nextProductId + 1 })
    | _, _ => (.error (.validation "Name and price are required"), st)

/-- `router.post "/assign"` (admin): set `assignedAdmin`. -/
def assignAdmin (st : St) (productId adminId : Option ObjId) :
    Except Err Product × St :=
  match productId, adminId with
  | some pid, some aid =>
    match lookupA st.products pid with
    | none => (.error (.notFound "Product not found"), st)
    | some p =>
      let p' : Product := { p with assignedAdmin := some aid }
      (.ok p', { st with products := updAssoc st.products pid (fun _ => p') })
  | _, _ => (.error (.validation "Product ID and Admin ID are required"), st)

/-- `router.put "/update/:id"` (admin): partial product update — only the
supplied fields are written (Mongoose strips `undefined`). -/
def updateProduct (st : St) (id : ObjId) (name : Option String)
    (price : Option ℚ) (description category : Option String)
    (stock : Option ℚ) : Except Err Product × St :=
  match lookupA st.products id with
  | none => (.error (.notFound "Product not found"), st)
  | some p =>
    let p' : Product := { p with
      name := name.getD p.name,
      price := price.getD p.price,
      description := match description with
        | some d => some d
        | none => p.description,
      category := match category with
        | some c => some c
        | none => p.category,
      stock := stock.getD p.stock }
    (.ok p', { st with products := updAssoc st.products id (fun _ => p') })

/-- `router.post "/cart/add"`: push a new cart line (never merged with an
existing line).  The resolved user need not exist: the update is then a
no-op and the re-fetched user payload is `none`. -/
def addToCart (st : St) (userId : Option ObjId) (productId : Option ObjId)
    (quantity : Option ℚ) : Except Err (Option User) × St :=
  if ¬ (idTruthy productId && numTruthy quantity) then
    (.error (.validation "Product ID and quantity are required"), st)
  else if ¬ idTruthy userId then
    (.error (.validation "userId is required (provide token or userId)"), st)
  else
    match userId, productId, quantity with
    | some uid, some pid, some q =>
      match lookupA st.products pid with
      | none => (.error (.notFound "Product not found"), st)
      | some _ =>
        let users' := updAssoc st.users uid
          (fun u => { u with cart := u.cart ++ [⟨pid, q⟩] })
        (.ok (lookupA users' uid), { st with users := users' })
    | _, _, _ => (.error (.validation "Product ID and quantity are required"), st)

/-- `router.delete "/cart/delete/:productId"`: `$pull` every cart line
whose `productId` matches; a no-op on a missing user. -/
def removeFromCart (st : St) (userId : Option ObjId) (productId : ObjId) :
    Except Err (Option User) × St :=
  match userId with
  | none => (.error (.validation "userId is required (provide token or userId)"), st)
  | some uid =>
    let users' := updAssoc st.users uid
      (fun u => { u with cart := u.cart.filter (fun c => c.productId != productId) })
    (.ok (lookupA users' uid), { st with users := users' })

/-- `router.get "/cart"`. -/
def getCart (st : St) (userId : Option ObjId) : Except Err (List CartItem) :=
  match userId with
  | none => .error (.validation "userId is required (provide token or userId)")
  | some uid =>
    match lookupA st.users uid with
    | none => .error (.notFound "User not found")
    | some u => .ok u.cart

def paymentMethods : List String :=
  ["credit_card", "debit_card", "upi", "net_banking", "wallet"]

/-- An `items` entry of the order-placement request body. -/
structure ItemReq where
  productId : ObjId
  quantity : ℚ
deriving DecidableEq

/-- The sequential `for (const item of items)` loop of
`router.post "/orders/place"`: look the product up, fail 404 if absent,
fail 400 if `stock < quantity`, accumulate the snapshot line and the
total, and decrement stock immediately (`$inc`) before the next item is
examined.  Returns the product collection as mutated so far together with
either the failure or `(totalAmount, processedItems)`. -/
def processItems : List ItemReq → List (ObjId × Product) → ℚ → List OrderItem →
    List (ObjId × Product) × Except Err (ℚ × List OrderItem)
  | [], ps, total, acc => (ps, .ok (total, acc))
  | it :: rest, ps, total, acc =>
    match lookupA ps it.productId with
    | none => (ps, .error (.notFound ("Product " ++ toString it.productId ++ " not found")))
    | some p =>
      if p.stock < it.quantity then
        (ps, .error (.conflict ("Insufficient stock for " ++ p.name)))
      else
        processItems rest
          (updAssoc ps it.productId (fun q => { q with stock := q.stock - it.quantity }))
          (total + p.price * it.quantity)
          (acc ++ [⟨it.productId, p.name, it.quantity, p.price, p.price * it.quantity⟩])

def defaultTracking : Tracking := ⟨"not_shipped", "", none, 0⟩

/-- The Order schema validators that `order.save()` runs: every item
quantity ≥ 1 (`min: 1`), a non-empty required `deliveryAddress`, and a
`paymentMethod` from the schema enum. -/
def orderSaveOk (o : Order) : Bool :=
  o.items.all (fun l => decide ((1 : ℚ) ≤ l.quantity)) &&
  (o.deliveryAddress != "") && paymentMethods.contains o.paymentMethod

/-- `router.post "/orders/place"` (auth).  On a mid-loop failure the
response is the error but the stock decrements already performed by the
loop persist; the order record and the cart clear only happen after the
whole loop (and the schema validation run by `save`) succeed. -/
def placeOrder (st : St) (userId : ObjId) (items : Option (List ItemReq))
    (deliveryAddress paymentMethod : Option String) : Except Err Order × St :=
  match items with
  | none => (.error (.validation "Items are required"), st)
  | some its =>
    if its.isEmpty then (.error (.validation "Items are required"), st)
    else if ¬ (strTruthy deliveryAddress && strTruthy paymentMethod) then
      (.error (.validation "Delivery address and payment method are required"), st)
    else
      match deliveryAddress, paymentMethod with
      | some addr, some pay =>
        match processItems its st.products 0 [] with
        | (ps1, .error e) => (.error e, { st with products := ps1 })
        | (ps1, .ok (total, lines)) =>
          let order : Order :=
            ⟨userId, lines, total, addr, pay, "pending", "pending", defaultTracking⟩
          if orderSaveOk order then
            (.ok order,
              { st with products := ps1,
                        orders := st.orders ++ [(st.nextOrderId, order)],
                        nextOrderId := st.nextOrderId + 1,
                        users := updAssoc st.users userId (fun u => { u with cart := [] }) })
          else
            (.error (.internal "Order validation failed"), { st with products := ps1 })
      | _, _ =>
        (.error (.validation "Delivery address and payment method are required"), st)

/-- `router.get "/user/orders"` (auth): the requester's orders.  The
source additionally sorts by `createdAt` descending; creation times are
not modelled, so the order of the returned list is the store order. -/
def listUserOrders (st : St) (userId : ObjId) : List (ObjId × Order) :=
  st.orders.filter (fun e => e.2.userId == userId)

/-- `router.delete "/orders/:orderId"` (auth): cancel an order — owner or
admin only, refused for delivered orders, otherwise restore every item's
stock (`$inc`, a no-op per item whose product id is absent) and delete the
order record. -/
def cancelOrder (st : St) (userId : ObjId) (role : String) (orderId : ObjId) :
    Except Err Order × St :=
  match lookupA st.orders orderId with
  | none => (.error (.notFound "Order not found"), st)
  | some o =>
    if o.userId != userId && role != "admin" then
      (.error (.forbidden "Unauthorized to delete this order"), st)
    else if o.orderStatus = "delivered" then
      (.error (.conflict "Cannot cancel a delivered order"), st)
    else
      (.ok o,
        { st with
          products := o.items.foldl
            (fun ps l => updAssoc ps l.productId
              (fun p => { p with stock := p.stock + l.quantity })) st.products,
          orders := st.orders.filter (fun e => e.1 != orderId) })

/-- `router.post "/delivery-tracking"` (admin): overwrite the tracking
sub-document (supplied fields only — Mongoose strips `undefined`), stamp
`updatedAt` with `now`, and force `orderStatus` to `delivered`/`shipped`. -/
def updateDeliveryTracking (st : St) (now : Nat) (orderId : Option ObjId)
    (status location estimatedDelivery : Option String) : Except Err Order × St :=
  if ¬ (idTruthy orderId && strTruthy status) then
    (.error (.validation "Order ID and status are required"), st)
  else
    match orderId, status with
    | some oid, some s =>
      match lookupA st.orders oid with
      | none => (.error (.notFound "Order not found"), st)
      | some o =>
        let o' : Order := { o with
          deliveryTracking :=
            { status := s,
              location := location.getD o.deliveryTracking.location,
              estimatedDelivery := match estimatedDelivery with
                | some e => some e
                | none => o.deliveryTracking.estimatedDelivery,
              updatedAt := now },
          orderStatus := if s = "delivered" then "delivered" else "shipped" }
        (.ok o', { st with orders := updAssoc st.orders oid (fun _ => o') })
    | _, _ => (.error (.validation "Order ID and status are required"), st)

/-- `parseFloat(x.toFixed(2))`: round to two decimal places. -/
def round2 (q : ℚ) : ℚ := (round (100 * q) : ℤ) / 100

/-- `router.post "/:productId/reviews"` (auth): validate the rating, fetch
the posting user (a missing user makes `user.name` throw — a 500, nothing
written), `$push` the review, recompute `averageRating`/`totalReviews`
from all stored reviews and `save()`.  `save` re-runs the rating
validators over the document; if a stored review were out of range the
save would fail after the `$push` already persisted. -/
def postReview (st : St) (userId productId : ObjId) (rating : Option ℚ)
    (comment : Option String) : Except Err Product × St :=
  match rating with
  | none => (.error (.validation "Rating must be between 1 and 5"), st)
  | some r =>
    if r = 0 ∨ r < 1 ∨ 5 < r then
      (.error (.validation "Rating must be between 1 and 5"), st)
    else
      match lookupA st.users userId with
      | none => (.error (.internal "Cannot read properties of null (reading name)"), st)
      | some u =>
        match lookupA st.products productId with
        | none => (.error (.notFound "Product not found"), st)
        | some p =>
          let p1 : Product := { p with reviews := p.reviews ++ [⟨userId, u.name, r, comment⟩] }
          let avg : ℚ := (p1.reviews.map Review.rating).sum / (p1.reviews.length : ℚ)
          let p2 : Product := { p1 with averageRating := round2 avg,
                                        totalReviews := p1.reviews.length }
          if p1.reviews.all (fun rv => decide (1 ≤ rv.rating) && decide (rv.rating ≤ 5)) then
            (.ok p2, { st with products := updAssoc st.products productId (fun _ => p2) })
          else
            (.error (.internal "Product validation failed"),
              { st with products := updAssoc st.products productId (fun _ => p1) })

attribute [ext] CartItem User Review Product OrderItem Tracking Order St

/-! ### Association-list laws -/

theorem lookupA_cons {α : Type} (e : ObjId × α) (rest : List (ObjId × α))
    (j : ObjId) :
    lookupA (e :: rest) j = if e.1 = j then some e.2 else lookupA rest j := rfl

theorem updAssoc_cons {α : Type} (e : ObjId × α) (rest : List (ObjId × α))
    (i : ObjId) (f : α → α) :
    updAssoc (e :: rest) i f
      = (if e.1 = i then (e.1, f e.2) else e) :: updAssoc rest i f := rfl

theorem lookupA_updAssoc {α : Type} (l : List (ObjId × α)) (i : ObjId)
    (f : α → α) (j : ObjId) :
    lookupA (updAssoc l i f) j = if j = i then (lookupA l i).map f else lookupA l j := by
  induction l with
  | nil => simp [lookupA, updAssoc]
  | cons e rest ih =>
    rw [updAssoc_cons]
    by_cases hei : e.1 = i
    · rw [if_pos hei, lookupA_cons, lookupA_cons, lookupA_cons]
      by_cases hej : e.1 = j
      · have hji : j = i := hej.symm.trans hei
        rw [if_pos hej, if_pos hji, if_pos hei, Option.map_some']
      · have hji : ¬ j = i := fun h => hej (hei.trans h.symm)
        rw [if_neg hej, if_neg hej, if_neg hji, ih, if_neg hji]
    · rw [if_neg hei, lookupA_cons, lookupA_cons, lookupA_cons, if_neg hei]
      by_cases hej : e.1 = j
      · have hji : ¬ j = i := fun h => hei (hej.trans h)
        rw [if_pos hej, if_pos hej, if_neg hji]
      · rw [if_neg hej, if_neg hej, ih]

theorem updAssoc_eq_of_lookup_none {α : Type} (l : List (ObjId × α)) (i : ObjId)
    (f : α → α) : lookupA l i = none → updAssoc l i f = l := by
  induction l with
  | nil => intro _; rfl
  | cons e rest ih =>
    intro h
    by_cases hei : e.1 = i
    · rw [lookupA, if_pos hei] at h; cases h
    · rw [lookupA, if_neg hei] at h
      have htail : updAssoc rest i f = rest := ih h
      rw [updAssoc] at htail
      simp [updAssoc, hei, htail]

theorem updAssoc_updAssoc {α : Type} (l : List (ObjId × α)) (i : ObjId)
    (f g : α → α) :
    updAssoc (updAssoc l i f) i g = updAssoc l i (fun a => g (f a)) := by
  unfold updAssoc
  rw [List.map_map]
  congr 1
  funext e
  by_cases hei : e.1 = i <;> simp [Function.comp, hei]

theorem lookupA_append_of_some {α : Type} (l m : List (ObjId × α)) (j : ObjId)
    (v : α) : lookupA l j = some v → lookupA (l ++ m) j = some v := by
  induction l with
  | nil => intro h; cases h
  | cons e rest ih =>
    intro h
    by_cases hej : e.1 = j
    · rw [lookupA, if_pos hej] at h
      simp [lookupA, hej, h]
    · rw [lookupA, if_neg hej] at h
      simp [lookupA, hej, ih h]

theorem lookupA_append_of_none {α : Type} (l m : List (ObjId × α)) (j : ObjId) :
    lookupA l j = none → lookupA (l ++ m) j = lookupA m j := by
  induction l with
  | nil => intro _; rfl
  | cons e rest ih =>
    intro h
    by_cases hej : e.1 = j
    · rw [lookupA, if_pos hej] at h; cases h
    · rw [lookupA, if_neg hej] at h
      simp [lookupA, hej, ih h]

theorem lookupA_filter_ne {α : Type} (l : List (ObjId × α)) (i : ObjId) :
    lookupA (l.filter (fun e => e.1 != i)) i = none := by
  induction l with
  | nil => rfl
  | cons e rest ih =>
    by_cases hei : e.1 = i
    · simp [List.filter_cons, hei, ih]
    · simp [List.filter_cons, hei, lookupA, ih]

/-! ### The order-placement loop -/

/-- Total quantity the request `its` orders of product `j`. -/
def qtySum (its : List ItemReq) (j : ObjId) : ℚ :=
  ((its.filter (fun it => it.productId == j)).map ItemReq.quantity).sum

theorem qtySum_cons (it : ItemReq) (rest : List ItemReq) (j : ObjId) :
    qtySum (it :: rest) j
      = (if it.productId = j then it.quantity else 0) + qtySum rest j := by
  by_cases h : it.productId = j <;> simp [qtySum, List.filter_cons, h]

theorem qtySum_eq_zero_of_not_mem (its : List ItemReq) (j : ObjId)
    (h : j ∉ its.map ItemReq.productId) : qtySum its j = 0 := by
  induction its with
  | nil => rfl
  | cons it rest ih =>
    simp only [List.map_cons, List.mem_cons] at h
    push_neg at h
    rw [qtySum_cons, if_neg (fun hh => h.1 hh.symm), ih h.2, add_zero]

theorem qtySum_of_nodup (its : List ItemReq) (it : ItemReq)
    (hnd : (its.map ItemReq.productId).Nodup) (hmem : it ∈ its) :
    qtySum its it.productId = it.quantity := by
  induction its with
  | nil => cases hmem
  | cons x rest ih =>
    rw [List.map_cons, List.nodup_cons] at hnd
    rcases List.mem_cons.mp hmem with h | h
    · subst h
      rw [qtySum_cons, if_pos rfl,
        qtySum_eq_zero_of_not_mem rest it.productId hnd.1, add_zero]
    · have hx : x.productId ≠ it.productId := by
        intro hh
        exact hnd.1 (hh ▸ List.mem_map_of_mem ItemReq.productId h)
      rw [qtySum_cons, if_neg hx, ih hnd.2 h, zero_add]

theorem stock_update_twice (p : Product) (a b : ℚ) :
    ({ ({ p with stock := p.stock - a } : Product) with
        stock := ({ p with stock := p.stock - a } : Product).stock - b } : Product)
      = { p with stock := p.stock - (a + b) } := by
  ext <;> simp <;> ring

/-- If the loop completes, every product's stock has dropped by exactly the
total quantity ordered of it, and nothing else about any product changed. -/
theorem processItems_ok_lookup (its : List ItemReq) :
    ∀ (ps ps' : List (ObjId × Product)) (t t' : ℚ) (a lines : List OrderItem),
      processItems its ps t a = (ps', .ok (t', lines)) →
      ∀ j, lookupA ps' j = (lookupA ps j).map
        (fun p => { p with stock := p.stock - qtySum its j }) := by
  induction its with
  | nil =>
    intro ps ps' t t' a lines h j
    rw [processItems] at h
    injection h with h1 h2
    subst h1
    have hq : qtySum ([] : List ItemReq) j = 0 := rfl
    rw [hq]
    cases lookupA ps j <;> simp
  | cons it rest ih =>
    intro ps ps' t t' a lines h j
    rw [processItems] at h
    cases hl : lookupA ps it.productId with
    | none => simp [hl] at h
    | some p =>
      simp only [hl] at h
      by_cases hs : p.stock < it.quantity
      · rw [if_pos hs] at h; simp at h
      · rw [if_neg hs] at h
        have h' := ih _ _ _ _ _ _ h j
        rw [h', lookupA_updAssoc, qtySum_cons]
        by_cases hji : j = it.productId
        · subst hji
          rw [if_pos rfl, if_pos rfl, hl]
          simp only [Option.map_some']
          rw [stock_update_twice]
        · rw [if_neg hji, if_neg (fun hh => hji hh.symm), zero_add]

/-- Running the loop on `pre ++ post` when the `pre` part of the loop
succeeds: the loop continues on `post` from the accumulated state. -/
theorem processItems_append_ok (pre : List ItemReq) :
    ∀ (post : List ItemReq) (ps ps1 : List (ObjId × Product)) (t t1 : ℚ)
      (a a1 : List OrderItem),
      processItems pre ps t a = (ps1, .ok (t1, a1)) →
      processItems (pre ++ post) ps t a = processItems post ps1 t1 a1 := by
  induction pre with
  | nil =>
    intro post ps ps1 t t1 a a1 h
    rw [processItems] at h
    injection h with h1 h2
    injection h2 with h3
    injection h3 with h4 h5
    subst h1; subst h4; subst h5
    rfl
  | cons it rest ih =>
    intro post ps ps1 t t1 a a1 h
    rw [processItems] at h
    rw [List.cons_append, processItems]
    cases hl : lookupA ps it.productId with
    | none => simp [hl] at h
    | some p =>
      simp only [hl] at h ⊢
      by_cases hs : p.stock < it.quantity
      · rw [if_pos hs] at h
        simp at h
      · rw [if_neg hs] at h
        rw [if_neg hs]
        exact ih post _ _ _ _ _ _ h

/-- The snapshot line the loop builds for the request item `it` from the
product data in `ps`. -/
def lineOf (ps : List (ObjId × Product)) (it : ItemReq) : OrderItem :=
  match lookupA ps it.productId with
  | some p => ⟨it.productId, p.name, it.quantity, p.price, p.price * it.quantity⟩
  | none => ⟨it.productId, "", it.quantity, 0, 0⟩

def linesOf (its : List ItemReq) (ps : List (ObjId × Product)) : List OrderItem :=
  its.map (lineOf ps)

def orderTotal (its : List ItemReq) (ps : List (ObjId × Product)) : ℚ :=
  ((linesOf its ps).map OrderItem.subtotal).sum

theorem linesOf_cons (it : ItemReq) (rest : List ItemReq)
    (ps : List (ObjId × Product)) :
    linesOf (it :: rest) ps = lineOf ps it :: linesOf rest ps := rfl

theorem orderTotal_cons (it : ItemReq) (rest : List ItemReq)
    (ps : List (ObjId × Product)) :
    orderTotal (it :: rest) ps = (lineOf ps it).subtotal + orderTotal rest ps := by
  unfold orderTotal
  rw [linesOf_cons, List.map_cons, List.sum_cons]

theorem linesOf_congr (its : List ItemReq) (ps1 ps2 : List (ObjId × Product))
    (h : ∀ it ∈ its, lookupA ps1 it.productId = lookupA ps2 it.productId) :
    linesOf its ps1 = linesOf its ps2 := by
  unfold linesOf
  refine List.map_congr_left (fun it hmem => ?_)
  unfold lineOf
  rw [h it hmem]

theorem orderTotal_congr (its : List ItemReq) (ps1 ps2 : List (ObjId × Product))
    (h : ∀ it ∈ its, lookupA ps1 it.productId = lookupA ps2 it.productId) :
    orderTotal its ps1 = orderTotal its ps2 := by
  unfold orderTotal
  rw [linesOf_congr its ps1 ps2 h]

/-- If the request items address pairwise-distinct products and each one's
product exists with sufficient stock, the whole loop succeeds and returns
the snapshot lines and the total computed from the initial product data. -/
theorem processItems_ok_of_valid (its : List ItemReq) :
    ∀ (ps : List (ObjId × Product)) (total : ℚ) (acc : List OrderItem),
      (its.map ItemReq.productId).Nodup →
      (∀ it ∈ its, ∃ p, lookupA ps it.productId = some p ∧ it.quantity ≤ p.stock) →
      ∃ ps', processItems its ps total acc
        = (ps', .ok (total + orderTotal its ps, acc ++ linesOf its ps)) := by
  induction its with
  | nil =>
    intro ps total acc _ _
    refine ⟨ps, ?_⟩
    rw [processItems]
    simp [orderTotal, linesOf]
  | cons it rest ih =>
    intro ps total acc hnd hv
    obtain ⟨p, hp, hle⟩ := hv it (List.mem_cons_self it rest)
    rw [List.map_cons, List.nodup_cons] at hnd
    have hs : ¬ p.stock < it.quantity := not_lt.mpr hle
    have hlook : ∀ it' ∈ rest,
        lookupA (updAssoc ps it.productId
          (fun q => { q with stock := q.stock - it.quantity })) it'.productId
          = lookupA ps it'.productId := by
      intro it' hmem
      rw [lookupA_updAssoc, if_neg]
      intro hh
      exact hnd.1 (hh ▸ List.mem_map_of_mem ItemReq.productId hmem)
    have hv' : ∀ it' ∈ rest, ∃ q,
        lookupA (updAssoc ps it.productId
          (fun q => { q with stock := q.stock - it.quantity })) it'.productId
          = some q ∧ it'.quantity ≤ q.stock := by
      intro it' hmem
      obtain ⟨q, hq, hqle⟩ := hv it' (List.mem_cons_of_mem it hmem)
      exact ⟨q, (hlook it' hmem).trans hq, hqle⟩
    obtain ⟨ps', hrec⟩ := ih _ (total + p.price * it.quantity)
      (acc ++ [⟨it.productId, p.name, it.quantity, p.price, p.price * it.quantity⟩])
      hnd.2 hv'
    refine ⟨ps', ?_⟩
    rw [processItems]
    simp only [hp]
    rw [if_neg hs, hrec, orderTotal_congr rest _ ps hlook, linesOf_congr rest _ ps hlook]
    have hline : lineOf ps it
        = ⟨it.productId, p.name, it.quantity, p.price, p.price * it.quantity⟩ := by
      unfold lineOf
      rw [hp]
    rw [orderTotal_cons, linesOf_cons, hline]
    simp [add_assoc]

/-! ### Cancellation stock restore -/

/-- Total quantity the order items `items` contain of product `j`. -/
def oQtySum (items : List OrderItem) (j : ObjId) : ℚ :=
  ((items.filter (fun l => l.productId == j)).map OrderItem.quantity).sum

theorem oQtySum_cons (l : OrderItem) (rest : List OrderItem) (j : ObjId) :
    oQtySum (l :: rest) j
      = (if l.productId = j then l.quantity else 0) + oQtySum rest j := by
  by_cases h : l.productId = j <;> simp [oQtySum, List.filter_cons, h]

theorem stock_update_twice_add (p : Product) (a b : ℚ) :
    ({ ({ p with stock := p.stock + a } : Product) with
        stock := ({ p with stock := p.stock + a } : Product).stock + b } : Product)
      = { p with stock := p.stock + (a + b) } := by
  ext <;> simp <;> ring

/-- The stock-restoring fold of order cancellation: every product's stock
grows by the total quantity the order held of it; a product id absent from
the store stays absent (per-item `findByIdAndUpdate` no-ops). -/
theorem restock_lookup (items : List OrderItem) :
    ∀ (ps : List (ObjId × Product)) (j : ObjId),
      lookupA (items.foldl (fun ps l => updAssoc ps l.productId
          (fun p => { p with stock := p.stock + l.quantity })) ps) j
        = (lookupA ps j).map (fun p => { p with stock := p.stock + oQtySum items j }) := by
  induction items with
  | nil =>
    intro ps j
    have h0 : oQtySum [] j = 0 := rfl
    rw [List.foldl_nil, h0]
    cases lookupA ps j <;> simp
  | cons l rest ih =>
    intro ps j
    rw [List.foldl_cons, ih, lookupA_updAssoc]
    by_cases hj : j = l.productId
    · subst hj
      rw [if_pos rfl]
      cases hl : lookupA ps l.productId with
      | none => simp
      | some p =>
        have hc : oQtySum (l :: rest) l.productId
            = l.quantity + oQtySum rest l.productId := by
          rw [oQtySum_cons, if_pos rfl]
        simp only [Option.map_map, Option.map_some', Function.comp_apply]
        congr 1
        ext <;> simp [hc] <;> ring_nf
    · rw [if_neg hj]
      have h0 : oQtySum (l :: rest) j = oQtySum rest j := by
        rw [oQtySum_cons, if_neg (fun hh => hj hh.symm), zero_add]
      rw [h0]

/-! ### Rating arithmetic -/

theorem round2_bounds {q : ℚ} (h1 : 1 ≤ q) (h5 : q ≤ 5) :
    1 ≤ round2 q ∧ round2 q ≤ 5 := by
  have h100 : round ((100 : ℚ)) = 100 := by
    exact_mod_cast round_intCast (α := ℚ) 100
  have h500 : round ((500 : ℚ)) = 500 := by
    exact_mod_cast round_intCast (α := ℚ) 500
  have hl : (100 : ℤ) ≤ round (100 * q) := by
    have hm : round ((100 : ℚ)) ≤ round (100 * q) := by
      rw [round_eq, round_eq]
      exact Int.floor_le_floor (by linarith)
    rw [h100] at hm
    exact hm
  have hu : round (100 * q) ≤ (500 : ℤ) := by
    have hm : round (100 * q) ≤ round ((500 : ℚ)) := by
      rw [round_eq, round_eq]
      exact Int.floor_le_floor (by linarith)
    rw [h500] at hm
    exact hm
  constructor
  · rw [round2, le_div_iff (by norm_num : (0 : ℚ) < 100), one_mul]
    exact_mod_cast hl
  · rw [round2, div_le_iff (by norm_num : (0 : ℚ) < 100)]
    norm_num
    exact_mod_cast hu

theorem mean_bounds (rs : List ℚ) (hne : rs ≠ [])
    (h : ∀ r ∈ rs, 1 ≤ r ∧ r ≤ 5) :
    1 ≤ rs.sum / (rs.length : ℚ) ∧ rs.sum / (rs.length : ℚ) ≤ 5 := by
  have hlen0 : 0 < rs.length := List.length_pos.mpr hne
  have hlen : (0 : ℚ) < (rs.length : ℚ) := by exact_mod_cast hlen0
  have hlo : (rs.length : ℚ) * 1 ≤ rs.sum := by
    have hx := List.card_nsmul_le_sum rs 1 (fun x hx => (h x hx).1)
    rw [nsmul_eq_mul] at hx
    exact_mod_cast hx
  have hhi : rs.sum ≤ (rs.length : ℚ) * 5 := by
    have hx := List.sum_le_card_nsmul rs 5 (fun x hx => (h x hx).2)
    rw [nsmul_eq_mul] at hx
    exact_mod_cast hx
  constructor
  · rw [le_div_iff hlen]
    linarith
  · rw [div_le_iff hlen]
    linarith

/-! ### The rating invariant and its preservation -/

/-- Per-product invariant: every stored rating is in `[1, 5]`, and a
product with at least one review has its cached `averageRating` in
`[1, 5]`. -/
def PInv (p : Product) : Prop :=
  (∀ rv ∈ p.reviews, 1 ≤ rv.rating ∧ rv.rating ≤ 5) ∧
  (1 ≤ p.totalReviews → 1 ≤ p.averageRating ∧ p.averageRating ≤ 5)

def StPInv (ps : List (ObjId × Product)) : Prop :=
  ∀ j p, lookupA ps j = some p → PInv p

theorem StPInv_updAssoc {ps : List (ObjId × Product)} {i : ObjId}
    {f : Product → Product} (h : StPInv ps)
    (hf : ∀ p, PInv p → PInv (f p)) : StPInv (updAssoc ps i f) := by
  intro j p hp
  rw [lookupA_updAssoc] at hp
  by_cases hji : j = i
  · rw [if_pos hji] at hp
    cases hl : lookupA ps i with
    | none => rw [hl] at hp; cases hp
    | some q =>
      rw [hl, Option.map_some'] at hp
      injection hp with hq
      exact hq ▸ hf q (h i q hl)
  · rw [if_neg hji] at hp
    exact h j p hp

theorem StPInv_append {ps : List (ObjId × Product)} {k : ObjId} {p : Product}
    (h : StPInv ps) (hp : PInv p) : StPInv (ps ++ [(k, p)]) := by
  intro j q hq
  cases hl : lookupA ps j with
  | some v =>
    rw [lookupA_append_of_some ps _ j v hl] at hq
    injection hq with hv
    exact hv ▸ h j v hl
  | none =>
    rw [lookupA_append_of_none ps _ j hl] at hq
    by_cases hkj : k = j
    · simp only [lookupA, hkj, if_pos] at hq
      injection hq with hv
      exact hv ▸ hp
    · simp [lookupA, hkj] at hq

theorem StPInv_restock {ps : List (ObjId × Product)} (items : List OrderItem)
    (h : StPInv ps) :
    StPInv (items.foldl (fun ps l => updAssoc ps l.productId
      (fun p => { p with stock := p.stock + l.quantity })) ps) := by
  intro j p hp
  rw [restock_lookup] at hp
  cases hl : lookupA ps j with
  | none => rw [hl] at hp; cases hp
  | some q =>
    rw [hl, Option.map_some'] at hp
    injection hp with hq
    exact hq ▸ (h j q hl)

theorem processItems_StPInv (its : List ItemReq) :
    ∀ (ps : List (ObjId × Product)) (t : ℚ) (a : List OrderItem),
      StPInv ps → StPInv (processItems its ps t a).1 := by
  induction its with
  | nil => intro ps t a h; exact h
  | cons it rest ih =>
    intro ps t a h
    rw [processItems]
    cases hl : lookupA ps it.productId with
    | none => exact h
    | some p =>
      by_cases hs : p.stock < it.quantity
      · simp only [hs, if_true]
        exact h
      · simp only [hs, if_false]
        exact ih _ _ _ (StPInv_updAssoc h (fun q hq => hq))

theorem signup_products (h : String → String) (st : St)
    (n e pw ph r : Option String) : (signup h st n e pw ph r).2.products = st.products := by
  unfold signup
  repeat' split
  all_goals rfl

theorem updateProfile_products (st : St) (uid : ObjId)
    (n e ph a : Option String) : (updateProfile st uid n e ph a).2.products = st.products := by
  unfold updateProfile
  repeat' split
  all_goals rfl

theorem addToCart_products (st : St) (uid pid : Option ObjId) (q : Option ℚ) :
    (addToCart st uid pid q).2.products = st.products := by
  unfold addToCart
  repeat' split
  all_goals rfl

theorem removeFromCart_products (st : St) (uid : Option ObjId) (pid : ObjId) :
    (removeFromCart st uid pid).2.products = st.products := by
  unfold removeFromCart
  repeat' split
  all_goals rfl

theorem updateDeliveryTracking_products (st : St) (now : Nat)
    (oid : Option ObjId) (s loc ed : Option String) :
    (updateDeliveryTracking st now oid s loc ed).2.products = st.products := by
  unfold updateDeliveryTracking
  repeat' split
  all_goals rfl

theorem addProduct_StPInv (st : St) (n : Option String) (pr : Option ℚ)
    (d c : Option String) (s : Option ℚ) (h : StPInv st.products) :
    StPInv (addProduct st n pr d c s).2.products := by
  unfold addProduct
  split
  · exact h
  · split
    · exact StPInv_append h (by
        constructor
        · intro rv hrv
          cases hrv
        · intro h1
          cases h1)
    · exact h

theorem assignAdmin_StPInv (st : St) (pid aid : Option ObjId)
    (h : StPInv st.products) : StPInv (assignAdmin st pid aid).2.products := by
  unfold assignAdmin
  split
  · split
    · exact h
    · rename_i p hp
      dsimp only
      refine StPInv_updAssoc h (fun q _ => ?_)
      exact h _ p hp
  · exact h

theorem updateProduct_StPInv (st : St) (id : ObjId) (n : Option String)
    (pr : Option ℚ) (d c : Option String) (s : Option ℚ)
    (h : StPInv st.products) : StPInv (updateProduct st id n pr d c s).2.products := by
  unfold updateProduct
  split
  · exact h
  · rename_i p hp
    dsimp only
    refine StPInv_updAssoc h (fun q _ => ?_)
    exact h _ p hp

theorem placeOrder_StPInv (st : St) (uid : ObjId) (items : Option (List ItemReq))
    (addr pay : Option String) (h : StPInv st.products) :
    StPInv (placeOrder st uid items addr pay).2.products := by
  unfold placeOrder
  split
  · exact h
  · rename_i its
    split
    · exact h
    · split
      · exact h
      · split
        · rename_i a b
          split
          · rename_i ps1 e heq
            have hx := processItems_StPInv its st.products 0 [] h
            rw [heq] at hx
            exact hx
          · rename_i ps1 total lines heq
            have hx := processItems_StPInv its st.products 0 [] h
            rw [heq] at hx
            dsimp only
            split
            · exact hx
            · exact hx
        · exact h

theorem cancelOrder_StPInv (st : St) (uid : ObjId) (role : String)
    (oid : ObjId) (h : StPInv st.products) :
    StPInv (cancelOrder st uid role oid).2.products := by
  unfold cancelOrder
  split
  · exact h
  · rename_i o ho
    split
    · exact h
    · split
      · exact h
      · exact StPInv_restock o.items h

theorem postReview_StPInv (st : St) (uid pid : ObjId) (r : Option ℚ)
    (c : Option String) (h : StPInv st.products) :
    StPInv (postReview st uid pid r c).2.products := by
  unfold postReview
  split
  · exact h
  · rename_i x
    split
    · exact h
    · rename_i hx
      push_neg at hx
      split
      · exact h
      · rename_i u hu
        split
        · exact h
        · rename_i p hp
          have hPp : PInv p := h pid p hp
          have hAll : ∀ rv ∈ p.reviews ++ [(⟨uid, u.name, x, c⟩ : Review)],
              1 ≤ rv.rating ∧ rv.rating ≤ 5 := by
            intro rv hrv
            rcases List.mem_append.mp hrv with hin | hin
            · exact hPp.1 rv hin
            · rcases List.mem_singleton.mp hin with rfl
              exact ⟨hx.2.1, hx.2.2⟩
          dsimp only
          split
          · dsimp only
            refine StPInv_updAssoc h (fun q _ => ?_)
            constructor
            · exact hAll
            · intro _
              have hne : (p.reviews ++ [(⟨uid, u.name, x, c⟩ : Review)]).map Review.rating ≠ [] := by
                simp
              have hmb := mean_bounds _ hne (by
                intro rr hrr
                rcases List.mem_map.mp hrr with ⟨rv, hrv, hrveq⟩
                exact hrveq ▸ hAll rv hrv)
              have hlen : (((p.reviews ++ [(⟨uid, u.name, x, c⟩ : Review)]).map Review.rating).length : ℚ)
                  = ((p.reviews ++ [(⟨uid, u.name, x, c⟩ : Review)]).length : ℚ) := by
                rw [List.length_map]
              rw [hlen] at hmb
              exact round2_bounds hmb.1 hmb.2
          · dsimp only
            refine StPInv_updAssoc h (fun q _ => ?_)
            exact ⟨hAll, fun h1 => hPp.2 h1⟩

/-- The states reachable from the empty store through the exposed
state-changing routes, with arbitrary request data (and arbitrary hash
collaborator / clock). -/
inductive Reachable : St → Prop where
  | init : Reachable St.init
  | step_signup (h : String → String) (st : St) (n e pw ph r : Option String) :
      Reachable st → Reachable (signup h st n e pw ph r).2
  | step_updateProfile (st : St) (uid : ObjId) (n e ph a : Option String) :
      Reachable st → Reachable (updateProfile st uid n e ph a).2
  | step_addProduct (st : St) (n : Option String) (pr : Option ℚ)
      (d c : Option String) (s : Option ℚ) :
      Reachable st → Reachable (addProduct st n pr d c s).2
  | step_assignAdmin (st : St) (pid aid : Option ObjId) :
      Reachable st → Reachable (assignAdmin st pid aid).2
  | step_updateProduct (st : St) (id : ObjId) (n : Option String) (pr : Option ℚ)
      (d c : Option String) (s : Option ℚ) :
      Reachable st → Reachable (updateProduct st id n pr d c s).2
  | step_addToCart (st : St) (uid pid : Option ObjId) (q : Option ℚ) :
      Reachable st → Reachable (addToCart st uid pid q).2
  | step_removeFromCart (st : St) (uid : Option ObjId) (pid : ObjId) :
      Reachable st → Reachable (removeFromCart st uid pid).2
  | step_placeOrder (st : St) (uid : ObjId) (items : Option (List ItemReq))
      (addr pay : Option String) :
      Reachable st → Reachable (placeOrder st uid items addr pay).2
  | step_cancelOrder (st : St) (uid : ObjId) (role : String) (oid : ObjId) :
      Reachable st → Reachable (cancelOrder st uid role oid).2
  | step_updateDeliveryTracking (st : St) (now : Nat) (oid : Option ObjId)
      (s loc ed : Option String) :
      Reachable st → Reachable (updateDeliveryTracking st now oid s loc ed).2
  | step_postReview (st : St) (uid pid : ObjId) (r : Option ℚ) (c : Option String) :
      Reachable st → Reachable (postReview st uid pid r c).2

theorem reachable_StPInv {st : St} (h : Reachable st) : StPInv st.products := by
  induction h with
  | init => intro j p hp; cases hp
  | step_signup h st n e pw ph r _ ih =>
    rw [signup_products]; exact ih
  | step_updateProfile st uid n e ph a _ ih =>
    rw [updateProfile_products]; exact ih
  | step_addProduct st n pr d c s _ ih =>
    exact addProduct_StPInv st n pr d c s ih
  | step_assignAdmin st pid aid _ ih =>
    exact assignAdmin_StPInv st pid aid ih
  | step_updateProduct st id n pr d c s _ ih =>
    exact updateProduct_StPInv st id n pr d c s ih
  | step_addToCart st uid pid q _ ih =>
    rw [addToCart_products]; exact ih
  | step_removeFromCart st uid pid _ ih =>
    rw [removeFromCart_products]; exact ih
  | step_placeOrder st uid items addr pay _ ih =>
    exact placeOrder_StPInv st uid items addr pay ih
  | step_cancelOrder st uid role oid _ ih =>
    exact cancelOrder_StPInv st uid role oid ih
  | step_updateDeliveryTracking st now oid s loc ed _ ih =>
    rw [updateDeliveryTracking_products]; exact ih
  | step_postReview st uid pid r c _ ih =>
    exact postReview_StPInv st uid pid r c ih

/-! ### Claim theorems -/

/-- C5: for every existing order and delivery-tracking update with a
present (truthy) status, the tracking status is set, `updatedAt` is set to
now, location and estimatedDelivery are set whenever supplied, and
`orderStatus` becomes `delivered` exactly when the supplied status is
`delivered` and `shipped` for every other status value, overwriting the
previous order status unconditionally; a missing (or empty) status fails
with `ValidationError`, and a missing order with `NotFoundError`. -/
theorem C5_deliveryTracking_update (st : St) (now : Nat) (oid : ObjId)
    (o : Order) (s : String) (loc ed : Option String)
    (ho : lookupA st.orders oid = some o) (hs : s ≠ "") :
    (∃ o' st', updateDeliveryTracking st now (some oid) (some s) loc ed
        = (.ok o', st') ∧
      o'.deliveryTracking.status = s ∧
      o'.deliveryTracking.updatedAt = now ∧
      (∀ l, loc = some l → o'.deliveryTracking.location = l) ∧
      (∀ e, ed = some e → o'.deliveryTracking.estimatedDelivery = some e) ∧
      o'.orderStatus = (if s = "delivered" then "delivered" else "shipped") ∧
      lookupA st'.orders oid = some o' ∧
      st'.users = st.users ∧ st'.products = st.products) ∧
    (∀ loc2 ed2, updateDeliveryTracking st now (some oid) none loc2 ed2
        = (.error (.validation "Order ID and status are required"), st) ∧
      updateDeliveryTracking st now (some oid) (some "") loc2 ed2
        = (.error (.validation "Order ID and status are required"), st)) ∧
    (∀ st2 : St, lookupA st2.orders oid = none →
      updateDeliveryTracking st2 now (some oid) (some s) loc ed
        = (.error (.notFound "Order not found"), st2)) := by
  have hstru : strTruthy (some s) = true := by simp [strTruthy, hs]
  refine ⟨?_, ?_, ?_⟩
  · unfold updateDeliveryTracking
    rw [if_neg (fun hcon => hcon (by simp [idTruthy, hstru]))]
    simp only [ho]
    try dsimp only
    refine ⟨_, _, rfl, rfl, rfl, ?_, ?_, rfl, ?_, rfl, rfl⟩
    · intro l hl
      subst hl
      rfl
    · intro e he
      subst he
      rfl
    · rw [lookupA_updAssoc, if_pos rfl, ho]
      rfl
  · intro loc2 ed2
    constructor
    · unfold updateDeliveryTracking
      rw [if_pos (by simp [idTruthy, strTruthy])]
    · unfold updateDeliveryTracking
      rw [if_pos (by simp [idTruthy, strTruthy])]
  · intro st2 h2
    unfold updateDeliveryTracking
    rw [if_neg (fun hcon => hcon (by simp [idTruthy, hstru]))]
    simp only [h2]

/-- C6: an admin product update with any subset of the five updatable
fields supplied changes exactly the supplied fields, leaves every other
field of the product (including reviews, averageRating, totalReviews,
assignedAdmin) and every other document unchanged, and fails with
`NotFoundError` on an absent id. -/
theorem C6_updateProduct_subset_update (st : St) (id : ObjId) (n : Option String)
    (pr : Option ℚ) (d c : Option String) (s : Option ℚ) :
    (∀ p, lookupA st.products id = some p →
      ∃ p' st', updateProduct st id n pr d c s = (.ok p', st') ∧
        (n = none → p'.name = p.name) ∧ (∀ v, n = some v → p'.name = v) ∧
        (pr = none → p'.price = p.price) ∧ (∀ v, pr = some v → p'.price = v) ∧
        (d = none → p'.description = p.description) ∧
        (∀ v, d = some v → p'.description = some v) ∧
        (c = none → p'.category = p.category) ∧
        (∀ v, c = some v → p'.category = some v) ∧
        (s = none → p'.stock = p.stock) ∧ (∀ v, s = some v → p'.stock = v) ∧
        p'.reviews = p.reviews ∧ p'.averageRating = p.averageRating ∧
        p'.totalReviews = p.totalReviews ∧ p'.assignedAdmin = p.assignedAdmin ∧
        lookupA st'.products id = some p' ∧
        (∀ j, j ≠ id → lookupA st'.products j = lookupA st.products j) ∧
        st'.users = st.users ∧ st'.orders = st.orders) ∧
    (lookupA st.products id = none →
      updateProduct st id n pr d c s = (.error (.notFound "Product not found"), st)) := by
  constructor
  · intro p hp
    unfold updateProduct
    simp only [hp]
    try dsimp only
    refine ⟨_, _, rfl, ?_, ?_, ?_, ?_, ?_, ?_, ?_, ?_, ?_, ?_, rfl, rfl, rfl, rfl,
      ?_, ?_, rfl, rfl⟩
    · intro h; subst h; rfl
    · intro v h; subst h; rfl
    · intro h; subst h; rfl
    · intro v h; subst h; rfl
    · intro h; subst h; rfl
    · intro v h; subst h; rfl
    · intro h; subst h; rfl
    · intro v h; subst h; rfl
    · intro h; subst h; rfl
    · intro v h; subst h; rfl
    · rw [lookupA_updAssoc, if_pos rfl, hp]
      rfl
    · intro j hj
      rw [lookupA_updAssoc, if_neg hj]
  · intro hp
    unfold updateProduct
    simp only [hp]

/-- C7: removing a product from a cart removes every cart line whose
productId matches, succeeds (with the user re-fetched) even when no line
matches — leaving the cart unchanged in that case — and the operation is
idempotent on the store state. -/
theorem C7_removeFromCart_idempotent (st : St) (uid : ObjId) (pid : ObjId) :
    (∀ u, lookupA st.users uid = some u →
      ∃ st', removeFromCart st (some uid) pid
          = (.ok (some { u with
              cart := u.cart.filter (fun cv => cv.productId != pid) }), st') ∧
        lookupA st'.users uid
          = some { u with cart := u.cart.filter (fun cv => cv.productId != pid) } ∧
        (∀ cv ∈ u.cart.filter (fun cv => cv.productId != pid), cv.productId ≠ pid) ∧
        (pid ∉ u.cart.map CartItem.productId →
          lookupA st'.users uid = some u)) ∧
    ((removeFromCart (removeFromCart st (some uid) pid).2 (some uid) pid).2
      = (removeFromCart st (some uid) pid).2) := by
  constructor
  · intro u hu
    have hlk : lookupA (updAssoc st.users uid
        (fun v => { v with cart := v.cart.filter (fun cv => cv.productId != pid) })) uid
        = some { u with cart := u.cart.filter (fun cv => cv.productId != pid) } := by
      rw [lookupA_updAssoc, if_pos rfl, hu]
      rfl
    have heq : removeFromCart st (some uid) pid
        = (.ok (some { u with cart := u.cart.filter (fun cv => cv.productId != pid) }),
           { st with users := updAssoc st.users uid (fun v =>
               { v with cart := v.cart.filter (fun cv => cv.productId != pid) }) }) := by
      unfold removeFromCart
      try dsimp only
      rw [hlk]
    refine ⟨_, heq, hlk, ?_, ?_⟩
    · intro cv hcv
      have h2 := List.of_mem_filter hcv
      simpa using h2
    · intro hnm
      have hfe : u.cart.filter (fun cv => cv.productId != pid) = u.cart := by
        rw [List.filter_eq_self]
        intro cv hcv
        simp only [bne_iff_ne, ne_eq]
        intro hh
        exact hnm (hh ▸ List.mem_map_of_mem CartItem.productId hcv)
      rw [hfe] at hlk
      exact hlk
  · unfold removeFromCart
    dsimp only
    have hcomp : updAssoc (updAssoc st.users uid
        (fun v => { v with cart := v.cart.filter (fun cv => cv.productId != pid) })) uid
        (fun v => { v with cart := v.cart.filter (fun cv => cv.productId != pid) })
        = updAssoc st.users uid
          (fun v => { v with cart := v.cart.filter (fun cv => cv.productId != pid) }) := by
      rw [updAssoc_updAssoc]
      congr 1
      funext v
      simp [List.filter_filter, Bool.and_self]
    rw [hcomp]

/-- C8: a login attempt whose email matches no user and a login attempt
with an existing email whose password fails hash verification both fail
with the same `AuthError` carrying the identical message, so the response
does not reveal whether the email exists. -/
theorem C8_login_uniform_error (compare : String → String → Bool) (st : St)
    (email1 pw1 email2 pw2 : String) (uid : ObjId) (u : User)
    (h1 : st.users.find? (fun x => x.2.email == email1) = none)
    (h2 : st.users.find? (fun x => x.2.email == email2) = some (uid, u))
    (h3 : compare pw2 u.password = false) :
    login compare st email1 pw1 = .error (.authErr "Invalid credentials") ∧
    login compare st email2 pw2 = .error (.authErr "Invalid credentials") ∧
    login compare st email1 pw1 = login compare st email2 pw2 := by
  have ha : login compare st email1 pw1 = .error (.authErr "Invalid credentials") := by
    unfold login
    simp only [h1]
  have hb : login compare st email2 pw2 = .error (.authErr "Invalid credentials") := by
    unfold login
    simp only [h2, h3]
    rfl
  exact ⟨ha, hb, ha.trans hb.symm⟩

/-- C9: addToCart (with an existing product and a truthy quantity) and
removeFromCart, called with a resolved userId that matches no stored user,
do not fail with `NotFoundError`: they return success with a `null` user
payload and leave the store — in particular every stored user's cart —
unchanged. -/
theorem C9_cart_ops_missing_user (st : St) (uid : ObjId) (pid : ObjId)
    (q : ℚ) (hq : q ≠ 0) (hu : lookupA st.users uid = none) (p : Product)
    (hp : lookupA st.products pid = some p) :
    addToCart st (some uid) (some pid) (some q) = (.ok none, st) ∧
    removeFromCart st (some uid) pid = (.ok none, st) := by
  constructor
  · have hc1 : (idTruthy (some pid) && numTruthy (some q)) = true := by
      simp [idTruthy, numTruthy, hq]
    unfold addToCart
    rw [if_neg (fun hcon => hcon hc1),
      if_neg (fun hcon => hcon (by simp [idTruthy]))]
    simp only [hp]
    try dsimp only
    rw [updAssoc_eq_of_lookup_none st.users uid _ hu, hu]
  · unfold removeFromCart
    try dsimp only
    rw [updAssoc_eq_of_lookup_none st.users uid _ hu, hu]

theorem lineOf_quantity (ps : List (ObjId × Product)) (it : ItemReq) :
    (lineOf ps it).quantity = it.quantity := by
  unfold lineOf
  cases lookupA ps it.productId <;> rfl

/-- C2: when the order-placement loop reaches an item whose requested
quantity exceeds the product's current stock, the request fails with
`ConflictError`, the failing item's product is left exactly as the loop
found it, no order record is created and the cart is not cleared — but
every earlier item's stock decrement has already been committed, with no
compensating rollback. -/
theorem C2_placeOrder_partial_failure (st : St) (uid : ObjId)
    (pre : List ItemReq) (itN : ItemReq) (post : List ItemReq)
    (addr pay : String) (ps1 : List (ObjId × Product)) (t1 : ℚ)
    (acc1 : List OrderItem) (p : Product)
    (haddr : addr ≠ "") (hpay : pay ≠ "")
    (hpre : processItems pre st.products 0 [] = (ps1, .ok (t1, acc1)))
    (hp : lookupA ps1 itN.productId = some p)
    (hs : p.stock < itN.quantity) :
    placeOrder st uid (some (pre ++ itN :: post)) (some addr) (some pay)
      = (.error (.conflict ("Insufficient stock for " ++ p.name)),
          { st with products := ps1 }) ∧
    ({ st with products := ps1 } : St).orders = st.orders ∧
    ({ st with products := ps1 } : St).users = st.users ∧
    lookupA ps1 itN.productId = some p ∧
    (∀ j, lookupA ps1 j = (lookupA st.products j).map
        (fun q => { q with stock := q.stock - qtySum pre j })) := by
  have hpi : processItems (pre ++ itN :: post) st.products 0 []
      = (ps1, .error (.conflict ("Insufficient stock for " ++ p.name))) := by
    rw [processItems_append_ok pre (itN :: post) st.products ps1 0 t1 [] acc1 hpre,
      processItems]
    simp only [hp]
    rw [if_pos hs]
  refine ⟨?_, rfl, rfl, hp, ?_⟩
  · have hne : (pre ++ itN :: post).isEmpty = false := by
      cases pre <;> rfl
    have htr : (strTruthy (some addr) && strTruthy (some pay)) = true := by
      simp [strTruthy, haddr, hpay]
    unfold placeOrder
    dsimp only
    rw [if_neg (by simp [hne]), if_neg (fun hcon => hcon htr)]
    simp only [hpi]
  · intro j
    exact processItems_ok_lookup pre st.products ps1 0 t1 [] acc1 hpre j

/-- C4: cancelling an existing, not-yet-delivered order as its owner or as
an admin restores every ordered product's stock by the total quantity the
order held of it and deletes the order record, which therefore no longer
appears in any `listUserOrders` result; cancelling a delivered order fails
with `ConflictError` and a requester who is neither owner nor admin fails
with `ForbiddenError`, both leaving the whole store unchanged. -/
theorem C4_cancelOrder (st : St) (uid : ObjId) (role : String) (oid : ObjId)
    (o : Order) (ho : lookupA st.orders oid = some o) :
    ((o.userId = uid ∨ role = "admin") → o.orderStatus ≠ "delivered" →
      ∃ st', cancelOrder st uid role oid = (.ok o, st') ∧
        (∀ j, lookupA st'.products j = (lookupA st.products j).map
            (fun p => { p with stock := p.stock + oQtySum o.items j })) ∧
        lookupA st'.orders oid = none ∧
        (∀ uid2, ∀ e ∈ listUserOrders st' uid2, e.1 ≠ oid) ∧
        st'.users = st.users) ∧
    ((o.userId = uid ∨ role = "admin") → o.orderStatus = "delivered" →
      cancelOrder st uid role oid
        = (.error (.conflict "Cannot cancel a delivered order"), st)) ∧
    (o.userId ≠ uid → role ≠ "admin" →
      cancelOrder st uid role oid
        = (.error (.forbidden "Unauthorized to delete this order"), st)) := by
  refine ⟨?_, ?_, ?_⟩
  · intro hown hnd
    have hg : (o.userId != uid && role != "admin") = false := by
      rcases hown with h | h
      · simp [h]
      · simp [h]
    unfold cancelOrder
    simp only [ho]
    rw [if_neg (by simp [hg]), if_neg hnd]
    refine ⟨_, rfl, ?_, ?_, ?_, rfl⟩
    · intro j
      exact restock_lookup o.items st.products j
    · exact lookupA_filter_ne st.orders oid
    · intro uid2 e he
      have h1 := (List.mem_filter.mp he).1
      have h2 := (List.mem_filter.mp h1).2
      simpa using h2
  · intro hown hd
    have hg : (o.userId != uid && role != "admin") = false := by
      rcases hown with h | h
      · simp [h]
      · simp [h]
    unfold cancelOrder
    simp only [ho]
    rw [if_neg (by simp [hg]), if_pos hd]
  · intro hno hnr
    have hg : (o.userId != uid && role != "admin") = true := by
      simp [hno, hnr]
    unfold cancelOrder
    simp only [ho]
    rw [if_pos hg]

/-- C1 (amended): an authenticated user placing an order with a non-empty
items list over pairwise-distinct products, a delivery address, a schema
payment method and quantities ≥ 1, where every product exists with stock
at least the requested quantity, succeeds: each product's stock drops by
exactly its ordered quantity (others untouched), the order snapshots
productName and unit price with subtotal = price × quantity, totalAmount
is the sum of the subtotals, the order is stored with both statuses
`pending`, and the whole cart of the placing user is emptied. -/
theorem C1_placeOrder_success (st : St) (uid : ObjId) (u : User)
    (its : List ItemReq) (addr pay : String)
    (hu : lookupA st.users uid = some u)
    (hne : its ≠ [])
    (haddr : addr ≠ "")
    (hpay : pay ∈ paymentMethods)
    (hnd : (its.map ItemReq.productId).Nodup)
    (hq1 : ∀ it ∈ its, 1 ≤ it.quantity)
    (hv : ∀ it ∈ its, ∃ p, lookupA st.products it.productId = some p ∧
        it.quantity ≤ p.stock) :
    ∃ o st', placeOrder st uid (some its) (some addr) (some pay) = (.ok o, st') ∧
      o.items = linesOf its st.products ∧
      (∀ it ∈ its, ∀ p, lookupA st.products it.productId = some p →
        lineOf st.products it
          = ⟨it.productId, p.name, it.quantity, p.price, p.price * it.quantity⟩) ∧
      o.totalAmount = (o.items.map OrderItem.subtotal).sum ∧
      o.paymentStatus = "pending" ∧ o.orderStatus = "pending" ∧
      (∀ it ∈ its, ∀ p, lookupA st.products it.productId = some p →
        lookupA st'.products it.productId
          = some { p with stock := p.stock - it.quantity }) ∧
      (∀ j, j ∉ its.map ItemReq.productId →
        lookupA st'.products j = lookupA st.products j) ∧
      st'.orders = st.orders ++ [(st.nextOrderId, o)] ∧
      lookupA st'.users uid = some { u with cart := [] } := by
  obtain ⟨ps', hloop⟩ := processItems_ok_of_valid its st.products 0 [] hnd hv
  have hne2 : its.isEmpty = false := by
    cases its with
    | nil => exact absurd rfl hne
    | cons a l => rfl
  have htr : (strTruthy (some addr) && strTruthy (some pay)) = true := by
    simp [strTruthy, haddr]
    intro hcon
    rw [hcon] at hpay
    simp [paymentMethods] at hpay
  have hsave : orderSaveOk ⟨uid, [] ++ linesOf its st.products,
      0 + orderTotal its st.products, addr, pay, "pending", "pending",
      defaultTracking⟩ = true := by
    unfold orderSaveOk
    simp only [Bool.and_eq_true, List.all_eq_true]
    refine ⟨⟨?_, ?_⟩, ?_⟩
    · intro l hl
      have hl2 : l ∈ linesOf its st.products := by simpa using hl
      unfold linesOf at hl2
      rcases List.mem_map.mp hl2 with ⟨it, hit, rfl⟩
      rw [decide_eq_true_eq, lineOf_quantity]
      exact hq1 it hit
    · simp [haddr]
    · exact List.elem_iff.mpr hpay
  unfold placeOrder
  dsimp only
  rw [if_neg (by simp [hne2]), if_neg (fun hcon => hcon htr)]
  simp only [hloop]
  rw [if_pos hsave]
  refine ⟨_, _, rfl, rfl, ?_, ?_, rfl, rfl, ?_, ?_, rfl, ?_⟩
  · intro it hit p hp
    unfold lineOf
    rw [hp]
  · rw [zero_add]
    rfl
  · intro it hit p hp
    have hlk := processItems_ok_lookup its st.products ps' 0
      (0 + orderTotal its st.products) [] ([] ++ linesOf its st.products)
      hloop it.productId
    rw [hlk, hp, Option.map_some', qtySum_of_nodup its it hnd hit]
  · intro j hj
    have hlk := processItems_ok_lookup its st.products ps' 0
      (0 + orderTotal its st.products) [] ([] ++ linesOf its st.products)
      hloop j
    rw [hlk, qtySum_eq_zero_of_not_mem its j hj]
    cases lookupA st.products j <;> simp
  · rw [lookupA_updAssoc, if_pos rfl, hu]
    rfl

/-- A review-post request: the posting user, the rating and the optional
comment. -/
structure ReviewReq where
  userId : ObjId
  rating : ℚ
  comment : Option String
deriving DecidableEq

/-- Run `router.post "/:productId/reviews"` once for each request in
order (a test driver over the handler). -/
def postAll (st : St) (pid : ObjId) : List ReviewReq → St
  | [] => st
  | rq :: rest => postAll (postReview st rq.userId pid (some rq.rating) rq.comment).2 pid rest

theorem postReview_valid_step (st : St) (uid pid : ObjId) (x : ℚ)
    (c : Option String) (u : User) (p : Product)
    (hx1 : 1 ≤ x) (hx5 : x ≤ 5)
    (hu : lookupA st.users uid = some u)
    (hp : lookupA st.products pid = some p)
    (hold : ∀ rv ∈ p.reviews, 1 ≤ rv.rating ∧ rv.rating ≤ 5) :
    postReview st uid pid (some x) c
      = (.ok { p with
            reviews := p.reviews ++ [(⟨uid, u.name, x, c⟩ : Review)],
            averageRating := round2
              (((p.reviews ++ [(⟨uid, u.name, x, c⟩ : Review)]).map Review.rating).sum
                / ((p.reviews ++ [(⟨uid, u.name, x, c⟩ : Review)]).length : ℚ)),
            totalReviews := (p.reviews ++ [(⟨uid, u.name, x, c⟩ : Review)]).length },
          { st with products := updAssoc st.products pid (fun _ =>
            { p with
              reviews := p.reviews ++ [(⟨uid, u.name, x, c⟩ : Review)],
              averageRating := round2
                (((p.reviews ++ [(⟨uid, u.name, x, c⟩ : Review)]).map Review.rating).sum
                  / ((p.reviews ++ [(⟨uid, u.name, x, c⟩ : Review)]).length : ℚ)),
              totalReviews := (p.reviews ++ [(⟨uid, u.name, x, c⟩ : Review)]).length }) }) := by
  have hcond : ¬ (x = 0 ∨ x < 1 ∨ 5 < x) := by
    rintro (h0 | hlt | hgt)
    · rw [h0] at hx1
      norm_num at hx1
    · linarith
    · linarith
  have hallb : (p.reviews ++ [(⟨uid, u.name, x, c⟩ : Review)]).all
      (fun rv => decide (1 ≤ rv.rating) && decide (rv.rating ≤ 5)) = true := by
    rw [List.all_eq_true]
    intro rv hrv
    rcases List.mem_append.mp hrv with hin | hin
    · obtain ⟨a, b⟩ := hold rv hin
      simp [a, b]
    · rcases List.mem_singleton.mp hin with rfl
      simp [hx1, hx5]
  unfold postReview
  try dsimp only
  rw [if_neg hcond]
  simp only [hu, hp]
  try dsimp only
  rw [if_pos hallb]

/-- Running a list of valid review posts against a product accumulates
exactly those ratings, leaves the user collection unchanged, and (when at
least one post was made) caches `averageRating` as the rounded mean of the
stored ratings and `totalReviews` as their count. -/
theorem postAll_spec (posts : List ReviewReq) :
    ∀ (st : St) (pid : ObjId) (p : Product),
      lookupA st.products pid = some p →
      (∀ rv ∈ p.reviews, 1 ≤ rv.rating ∧ rv.rating ≤ 5) →
      (∀ rq ∈ posts, 1 ≤ rq.rating ∧ rq.rating ≤ 5) →
      (∀ rq ∈ posts, (lookupA st.users rq.userId).isSome) →
      (postAll st pid posts).users = st.users ∧
      ∃ p', lookupA (postAll st pid posts).products pid = some p' ∧
        p'.reviews.map Review.rating
          = p.reviews.map Review.rating ++ posts.map ReviewReq.rating ∧
        (posts = [] → p' = p) ∧
        (posts ≠ [] →
          p'.averageRating = round2 ((p'.reviews.map Review.rating).sum
            / (p'.reviews.length : ℚ)) ∧
          p'.totalReviews = p'.reviews.length) := by
  induction posts with
  | nil =>
    intro st pid p hp _ _ _
    exact ⟨rfl, p, hp, by simp, fun _ => rfl, fun h => absurd rfl h⟩
  | cons rq rest ih =>
    intro st pid p hp hold hr hu
    have hq := hr rq (List.mem_cons_self rq rest)
    obtain ⟨u, huu⟩ := Option.isSome_iff_exists.mp (hu rq (List.mem_cons_self rq rest))
    have hAll : ∀ rv ∈ p.reviews ++ [(⟨rq.userId, u.name, rq.rating, rq.comment⟩ : Review)],
        1 ≤ rv.rating ∧ rv.rating ≤ 5 := by
      intro rv hrv
      rcases List.mem_append.mp hrv with hin | hin
      · exact hold rv hin
      · rcases List.mem_singleton.mp hin with rfl
        exact hq
    have hstep := postReview_valid_step st rq.userId pid rq.rating rq.comment u p
      hq.1 hq.2 huu hp hold
    set P2 : Product := { p with
        reviews := p.reviews ++ [(⟨rq.userId, u.name, rq.rating, rq.comment⟩ : Review)],
        averageRating := round2
          (((p.reviews ++ [(⟨rq.userId, u.name, rq.rating, rq.comment⟩ : Review)]).map Review.rating).sum
            / ((p.reviews ++ [(⟨rq.userId, u.name, rq.rating, rq.comment⟩ : Review)]).length : ℚ)),
        totalReviews := (p.reviews ++ [(⟨rq.userId, u.name, rq.rating, rq.comment⟩ : Review)]).length }
      with hP2def
    rw [postAll, hstep]
    dsimp only
    have hlk2 : lookupA (updAssoc st.products pid (fun _ => P2)) pid = some P2 := by
      rw [lookupA_updAssoc, if_pos rfl, hp]
      rfl
    have hold2 : ∀ rv ∈ P2.reviews, 1 ≤ rv.rating ∧ rv.rating ≤ 5 := by
      rw [hP2def]
      exact hAll
    obtain ⟨husers, p', hp', hratings, hnil, hne2⟩ :=
      ih ({ st with products := updAssoc st.products pid (fun _ => P2) }) pid P2
        hlk2 hold2
        (fun rq2 h2 => hr rq2 (List.mem_cons_of_mem rq h2))
        (fun rq2 h2 => hu rq2 (List.mem_cons_of_mem rq h2))
    refine ⟨husers, p', hp', ?_, ?_, ?_⟩
    · rw [hratings, hP2def]
      dsimp only
      rw [List.map_append]
      simp [List.append_assoc]
    · intro h
      exact (List.cons_ne_nil _ _ h).elim
    · intro _
      rcases eq_or_ne rest [] with h0 | h0
      · have hpp := hnil h0
        rw [hpp, hP2def]
        exact ⟨rfl, rfl⟩
      · exact hne2 h0

/-- C3: posting N valid reviews (ratings in `[1, 5]`, by existing users)
against an existing product with no prior reviews leaves the product with
`averageRating` equal to the mean of the posted ratings rounded to two
decimals and `totalReviews = N`; a post whose rating lies outside `[1, 5]`
fails with `ValidationError` and appends nothing (state unchanged). -/
theorem C3_review_aggregation :
    (∀ (st : St) (pid : ObjId) (p : Product) (posts : List ReviewReq),
      lookupA st.products pid = some p → p.reviews = [] → posts ≠ [] →
      (∀ rq ∈ posts, 1 ≤ rq.rating ∧ rq.rating ≤ 5) →
      (∀ rq ∈ posts, (lookupA st.users rq.userId).isSome) →
      ∃ p', lookupA (postAll st pid posts).products pid = some p' ∧
        p'.averageRating
          = round2 ((posts.map ReviewReq.rating).sum / (posts.length : ℚ)) ∧
        p'.totalReviews = posts.length) ∧
    (∀ (st : St) (uid pid : ObjId) (r : ℚ) (c : Option String),
      r < 1 ∨ 5 < r →
      postReview st uid pid (some r) c
        = (.error (.validation "Rating must be between 1 and 5"), st)) := by
  constructor
  · intro st pid p posts hp hempty hposts hr hu
    obtain ⟨-, p', hp', hratings, -, hne⟩ := postAll_spec posts st pid p hp
      (by rw [hempty]; intro rv hrv; exact absurd hrv (List.not_mem_nil rv)) hr hu
    have hmr : p'.reviews.map Review.rating = posts.map ReviewReq.rating := by
      rw [hratings, hempty]
      simp
    have hlen : p'.reviews.length = posts.length := by
      have h1 := congrArg List.length hmr
      simpa using h1
    obtain ⟨havg, htot⟩ := hne hposts
    refine ⟨p', hp', ?_, ?_⟩
    · rw [havg, hmr, hlen]
    · rw [htot, hlen]
  · intro st uid pid r c h
    unfold postReview
    try dsimp only
    rw [if_pos (Or.inr h)]

/-- C10: in every state reachable from the empty store through the exposed
operations, every product with `totalReviews ≥ 1` has
`1 ≤ averageRating ≤ 5`: postReview only appends ratings in `[1, 5]` and
recomputes the cached rounded mean, and no other exposed operation writes
`averageRating` or `reviews`. -/
theorem C10_averageRating_bounds (st : St) (hr : Reachable st) :
    ∀ pid p, lookupA st.products pid = some p →
      1 ≤ p.totalReviews → 1 ≤ p.averageRating ∧ p.averageRating ≤ 5 := by
  intro pid p hp h1
  exact (reachable_StPInv hr pid p hp).2 h1

/-! ### Concrete instances -/

def cexUser : User := ⟨"U", "u@example.com", "h", "user", "", "", [⟨1, 1⟩]⟩

def cexProduct : Product := ⟨"A", 10, none, none, 3, none, [], 0, 0⟩

def cexSt : St := ⟨[(7, cexUser)], [(1, cexProduct)], [], 8, 2, 0⟩

def cexItems : List ItemReq := [⟨1, 2⟩, ⟨1, 2⟩]

/-- C1 counterexample: an order whose two items address the same product,
each with quantity 2 against stock 3, satisfies the claim's hypotheses
(authenticated user, non-empty items, address, payment method, every
item's product exists with stock ≥ the requested quantity), yet the code
rejects it with the insufficient-stock `ConflictError` — the second item
is checked against the stock already decremented by the first — and no
order is created. -/
theorem C1_placeOrder_counterexample :
    (∀ it ∈ cexItems, lookupA cexSt.products it.productId = some cexProduct ∧
        it.quantity ≤ cexProduct.stock ∧ 1 ≤ it.quantity) ∧
    cexItems ≠ [] ∧ ("addr" : String) ≠ "" ∧ "upi" ∈ paymentMethods ∧
    lookupA cexSt.users 7 = some cexUser ∧
    (placeOrder cexSt 7 (some cexItems) (some "addr") (some "upi")).1
      = .error (.conflict "Insufficient stock for A") ∧
    (placeOrder cexSt 7 (some cexItems) (some "addr") (some "upi")).2.orders = [] ∧
    lookupA (placeOrder cexSt 7 (some cexItems) (some "addr") (some "upi")).2.users 7
      = some cexUser := by
  have hrun : placeOrder cexSt 7 (some cexItems) (some "addr") (some "upi")
      = (.error (.conflict "Insufficient stock for A"),
         { cexSt with products := [(1, ⟨"A", 10, none, none, 1, none, [], 0, 0⟩)] }) := by
    norm_num +decide [placeOrder, processItems, cexSt, cexItems, cexProduct, cexUser,
      lookupA, updAssoc, strTruthy]
  refine ⟨by decide, by decide, by decide, by decide, by decide, ?_, ?_, ?_⟩
  · rw [hrun]
  · rw [hrun]; rfl
  · rw [hrun]
    decide

def c1User : User := ⟨"W", "w@example.com", "h", "user", "", "", [⟨2, 1⟩]⟩

def c1Product : Product := ⟨"A", 10, none, none, 5, none, [], 0, 0⟩

def c1St : St := ⟨[(7, c1User)], [(1, c1Product)], [], 8, 2, 0⟩

def c1Items : List ItemReq := [⟨1, 2⟩]

theorem C1_placeOrder_success_witness :
    lookupA c1St.users 7 = some c1User ∧
    c1Items ≠ [] ∧ ("addr" : String) ≠ "" ∧ "upi" ∈ paymentMethods ∧
    (c1Items.map ItemReq.productId).Nodup ∧
    (∀ it ∈ c1Items, 1 ≤ it.quantity) ∧
    (∀ it ∈ c1Items, ∃ p, lookupA c1St.products it.productId = some p ∧
        it.quantity ≤ p.stock) ∧
    (∃ o st', placeOrder c1St 7 (some c1Items) (some "addr") (some "upi")
        = (.ok o, st') ∧
      o.items = linesOf c1Items c1St.products ∧
      (∀ it ∈ c1Items, ∀ p, lookupA c1St.products it.productId = some p →
        lineOf c1St.products it
          = ⟨it.productId, p.name, it.quantity, p.price, p.price * it.quantity⟩) ∧
      o.totalAmount = (o.items.map OrderItem.subtotal).sum ∧
      o.paymentStatus = "pending" ∧ o.orderStatus = "pending" ∧
      (∀ it ∈ c1Items, ∀ p, lookupA c1St.products it.productId = some p →
        lookupA st'.products it.productId
          = some { p with stock := p.stock - it.quantity }) ∧
      (∀ j, j ∉ c1Items.map ItemReq.productId →
        lookupA st'.products j = lookupA c1St.products j) ∧
      st'.orders = c1St.orders ++ [(c1St.nextOrderId, o)] ∧
      lookupA st'.users 7 = some { c1User with cart := [] }) := by
  have hv : ∀ it ∈ c1Items, ∃ p, lookupA c1St.products it.productId = some p ∧
      it.quantity ≤ p.stock := by
    intro it hit
    rcases List.mem_singleton.mp hit with rfl
    exact ⟨c1Product, by decide, by decide⟩
  exact ⟨by decide, by decide, by decide, by decide, by decide, by decide, hv,
    C1_placeOrder_success c1St 7 c1User c1Items "addr" "upi" (by decide) (by decide)
      (by decide) (by decide) (by decide) (by decide) hv⟩

def c2ProductA : Product := ⟨"A", 10, none, none, 5, none, [], 0, 0⟩

def c2ProductB : Product := ⟨"B", 4, none, none, 1, none, [], 0, 0⟩

def c2St : St := ⟨[], [(1, c2ProductA), (2, c2ProductB)], [], 0, 3, 0⟩

def c2Pre : List ItemReq := [⟨1, 2⟩]

def c2ItN : ItemReq := ⟨2, 3⟩

def c2Ps1 : List (ObjId × Product) :=
  [(1, ⟨"A", 10, none, none, 3, none, [], 0, 0⟩), (2, c2ProductB)]

theorem C2_placeOrder_partial_failure_witness :
    ("addr" : String) ≠ "" ∧ ("upi" : String) ≠ "" ∧
    processItems c2Pre c2St.products 0 []
      = (c2Ps1, .ok (20, [⟨1, "A", 2, 10, 20⟩])) ∧
    lookupA c2Ps1 c2ItN.productId = some c2ProductB ∧
    c2ProductB.stock < c2ItN.quantity ∧
    (placeOrder c2St 7 (some (c2Pre ++ c2ItN :: [])) (some "addr") (some "upi")
        = (.error (.conflict ("Insufficient stock for " ++ c2ProductB.name)),
            { c2St with products := c2Ps1 }) ∧
      ({ c2St with products := c2Ps1 } : St).orders = c2St.orders ∧
      ({ c2St with products := c2Ps1 } : St).users = c2St.users ∧
      lookupA c2Ps1 c2ItN.productId = some c2ProductB ∧
      (∀ j, lookupA c2Ps1 j = (lookupA c2St.products j).map
          (fun q => { q with stock := q.stock - qtySum c2Pre j }))) := by
  have hpre : processItems c2Pre c2St.products 0 []
      = (c2Ps1, .ok (20, [⟨1, "A", 2, 10, 20⟩])) := by
    norm_num +decide [processItems, c2Pre, c2St, c2ProductA, c2ProductB, c2Ps1,
      lookupA, updAssoc]
  exact ⟨by decide, by decide, hpre, by decide, by decide,
    C2_placeOrder_partial_failure c2St 7 c2Pre c2ItN [] "addr" "upi" c2Ps1 20
      [⟨1, "A", 2, 10, 20⟩] c2ProductB (by decide) (by decide) hpre
      (by decide) (by decide)⟩

def c3User : User := ⟨"R", "r@example.com", "h", "user", "", "", []⟩

def c3Product : Product := ⟨"P", 10, none, none, 5, none, [], 0, 0⟩

def c3St : St := ⟨[(4, c3User)], [(9, c3Product)], [], 5, 10, 0⟩

def c3Posts : List ReviewReq := [⟨4, 5, none⟩, ⟨4, 4, none⟩]

theorem C3_review_aggregation_witness :
    lookupA c3St.products 9 = some c3Product ∧
    c3Product.reviews = [] ∧
    c3Posts ≠ [] ∧
    (∀ rq ∈ c3Posts, 1 ≤ rq.rating ∧ rq.rating ≤ 5) ∧
    (∀ rq ∈ c3Posts, (lookupA c3St.users rq.userId).isSome) ∧
    (∃ p', lookupA (postAll c3St 9 c3Posts).products 9 = some p' ∧
      p'.averageRating
        = round2 ((c3Posts.map ReviewReq.rating).sum / (c3Posts.length : ℚ)) ∧
      p'.totalReviews = c3Posts.length) ∧
    ((6 : ℚ) < 1 ∨ (5 : ℚ) < 6) ∧
    postReview c3St 4 9 (some 6) none
      = (.error (.validation "Rating must be between 1 and 5"), c3St) :=
  ⟨by decide, rfl, by decide, by decide, by decide,
    C3_review_aggregation.1 c3St 9 c3Product c3Posts (by decide) rfl (by decide)
      (by decide) (by decide),
    by norm_num,
    C3_review_aggregation.2 c3St 4 9 6 none (by norm_num)⟩

def c4Product : Product := ⟨"A", 10, none, none, 3, none, [], 0, 0⟩

def c4Order : Order :=
  ⟨7, [⟨1, "A", 2, 10, 20⟩], 20, "addr", "upi", "pending", "pending", defaultTracking⟩

def c4St : St := ⟨[], [(1, c4Product)], [(5, c4Order)], 0, 2, 6⟩

theorem C4_cancelOrder_witness :
    lookupA c4St.orders 5 = some c4Order ∧
    (c4Order.userId = 7 ∨ ("user" : String) = "admin") ∧
    c4Order.orderStatus ≠ "delivered" ∧
    (∃ st', cancelOrder c4St 7 "user" 5 = (.ok c4Order, st') ∧
      (∀ j, lookupA st'.products j = (lookupA c4St.products j).map
          (fun p => { p with stock := p.stock + oQtySum c4Order.items j })) ∧
      lookupA st'.orders 5 = none ∧
      (∀ uid2, ∀ e ∈ listUserOrders st' uid2, e.1 ≠ 5) ∧
      st'.users = c4St.users) :=
  ⟨by decide, Or.inl (by decide), by decide,
    (C4_cancelOrder c4St 7 "user" 5 c4Order (by decide)).1 (Or.inl (by decide))
      (by decide)⟩

def c5Order : Order :=
  ⟨7, [], 20, "addr", "upi", "pending", "confirmed", defaultTracking⟩

def c5St : St := ⟨[], [], [(3, c5Order)], 0, 0, 4⟩

theorem C5_deliveryTracking_update_witness :
    lookupA c5St.orders 3 = some c5Order ∧ ("in_transit" : String) ≠ "" ∧
    (∃ o' st', updateDeliveryTracking c5St 42 (some 3) (some "in_transit")
        (some "Hub") (some "soon") = (.ok o', st') ∧
      o'.deliveryTracking.status = "in_transit" ∧
      o'.deliveryTracking.updatedAt = 42 ∧
      (∀ l, (some "Hub" : Option String) = some l → o'.deliveryTracking.location = l) ∧
      (∀ e, (some "soon" : Option String) = some e →
        o'.deliveryTracking.estimatedDelivery = some e) ∧
      o'.orderStatus = (if ("in_transit" : String) = "delivered" then "delivered" else "shipped") ∧
      lookupA st'.orders 3 = some o' ∧
      st'.users = c5St.users ∧ st'.products = c5St.products) :=
  ⟨by decide, by decide,
    (C5_deliveryTracking_update c5St 42 3 c5Order "in_transit" (some "Hub")
      (some "soon") (by decide) (by decide)).1⟩

def c6Product : Product :=
  ⟨"A", 10, some "desc", some "cat", 5, some 9, [⟨2, "U", 4, none⟩], 4, 1⟩

def c6St : St := ⟨[], [(1, c6Product)], [], 0, 2, 0⟩

theorem C6_updateProduct_subset_update_witness :
    lookupA c6St.products 1 = some c6Product ∧
    (∃ p' st', updateProduct c6St 1 (some "B") none none none (some 7)
        = (.ok p', st') ∧
      ((some "B" : Option String) = none → p'.name = c6Product.name) ∧
      (∀ v, (some "B" : Option String) = some v → p'.name = v) ∧
      ((none : Option ℚ) = none → p'.price = c6Product.price) ∧
      (∀ v, (none : Option ℚ) = some v → p'.price = v) ∧
      ((none : Option String) = none → p'.description = c6Product.description) ∧
      (∀ v, (none : Option String) = some v → p'.description = some v) ∧
      ((none : Option String) = none → p'.category = c6Product.category) ∧
      (∀ v, (none : Option String) = some v → p'.category = some v) ∧
      ((some (7 : ℚ) : Option ℚ) = none → p'.stock = c6Product.stock) ∧
      (∀ v, (some (7 : ℚ) : Option ℚ) = some v → p'.stock = v) ∧
      p'.reviews = c6Product.reviews ∧
      p'.averageRating = c6Product.averageRating ∧
      p'.totalReviews = c6Product.totalReviews ∧
      p'.assignedAdmin = c6Product.assignedAdmin ∧
      lookupA st'.products 1 = some p' ∧
      (∀ j, j ≠ 1 → lookupA st'.products j = lookupA c6St.products j) ∧
      st'.users = c6St.users ∧ st'.orders = c6St.orders) ∧
    (lookupA c6St.products 99 = none ∧
      updateProduct c6St 99 (some "B") none none none (some 7)
        = (.error (.notFound "Product not found"), c6St)) :=
  ⟨by decide,
    (C6_updateProduct_subset_update c6St 1 (some "B") none none none (some 7)).1
      c6Product (by decide),
    by decide,
    (C6_updateProduct_subset_update c6St 99 (some "B") none none none (some 7)).2
      (by decide)⟩

def c7User : User := ⟨"U", "u@example.com", "h", "user", "", "",
  [⟨1, 2⟩, ⟨2, 1⟩, ⟨1, 1⟩]⟩

def c7St : St := ⟨[(3, c7User)], [], [], 4, 0, 0⟩

theorem C7_removeFromCart_idempotent_witness :
    lookupA c7St.users 3 = some c7User ∧
    (∃ st', removeFromCart c7St (some 3) 1
        = (.ok (some { c7User with
            cart := c7User.cart.filter (fun cv => cv.productId != 1) }), st') ∧
      lookupA st'.users 3
        = some { c7User with cart := c7User.cart.filter (fun cv => cv.productId != 1) } ∧
      (∀ cv ∈ c7User.cart.filter (fun cv => cv.productId != 1), cv.productId ≠ 1) ∧
      (1 ∉ c7User.cart.map CartItem.productId → lookupA st'.users 3 = some c7User)) ∧
    ((removeFromCart (removeFromCart c7St (some 3) 1).2 (some 3) 1).2
      = (removeFromCart c7St (some 3) 1).2) :=
  ⟨by decide,
    (C7_removeFromCart_idempotent c7St 3 1).1 c7User (by decide),
    (C7_removeFromCart_idempotent c7St 3 1).2⟩

def c8User : User := ⟨"E", "e@example.com", "hash", "user", "", "", []⟩

def c8St : St := ⟨[(2, c8User)], [], [], 3, 0, 0⟩

theorem C8_login_uniform_error_witness :
    c8St.users.find? (fun x => x.2.email == "nobody@example.com") = none ∧
    c8St.users.find? (fun x => x.2.email == "e@example.com") = some (2, c8User) ∧
    (fun (_ _ : String) => false) "b" c8User.password = false ∧
    login (fun _ _ => false) c8St "nobody@example.com" "a"
      = .error (.authErr "Invalid credentials") ∧
    login (fun _ _ => false) c8St "e@example.com" "b"
      = .error (.authErr "Invalid credentials") ∧
    login (fun _ _ => false) c8St "nobody@example.com" "a"
      = login (fun _ _ => false) c8St "e@example.com" "b" := by
  have h := C8_login_uniform_error (fun _ _ => false) c8St "nobody@example.com" "a"
    "e@example.com" "b" 2 c8User (by decide) (by decide) rfl
  exact ⟨by decide, by decide, rfl, h.1, h.2.1, h.2.2⟩

def c9Product : Product := ⟨"A", 10, none, none, 5, none, [], 0, 0⟩

def c9User : User := ⟨"U", "u@example.com", "h", "user", "", "", [⟨1, 1⟩]⟩

def c9St : St := ⟨[(2, c9User)], [(1, c9Product)], [], 3, 2, 0⟩

theorem C9_cart_ops_missing_user_witness :
    (2 : ℚ) ≠ 0 ∧
    lookupA c9St.users 5 = none ∧
    lookupA c9St.products 1 = some c9Product ∧
    addToCart c9St (some 5) (some 1) (some 2) = (.ok none, c9St) ∧
    removeFromCart c9St (some 5) 1 = (.ok none, c9St) := by
  have h := C9_cart_ops_missing_user c9St 5 1 2 (by norm_num) (by decide)
    c9Product (by decide)
  exact ⟨by norm_num, by decide, by decide, h.1, h.2⟩

def c10St1 : St := (addProduct St.init (some "A") (some 10) none none (some 5)).2

def c10St2 : St :=
  (signup (fun s => s) c10St1 (some "U") (some "u@example.com") (some "pw") none none).2

def c10St3 : St := (postReview c10St2 0 0 (some 5) none).2

theorem C10_averageRating_bounds_witness :
    lookupA c10St3.products 0
      = some ⟨"A", 10, none, none, 5, none, [⟨0, "U", 5, none⟩], 5, 1⟩ ∧
    1 ≤ (⟨"A", 10, none, none, 5, none, [⟨0, "U", 5, none⟩], 5, 1⟩ : Product).totalReviews ∧
    (1 ≤ (⟨"A", 10, none, none, 5, none, [⟨0, "U", 5, none⟩], 5, 1⟩ : Product).averageRating ∧
      (⟨"A", 10, none, none, 5, none, [⟨0, "U", 5, none⟩], 5, 1⟩ : Product).averageRating ≤ 5) := by
  have hlk : lookupA c10St3.products 0
      = some ⟨"A", 10, none, none, 5, none, [⟨0, "U", 5, none⟩], 5, 1⟩ := by
    norm_num +decide [c10St3, c10St2, c10St1, postReview, signup, addProduct,
      St.init, lookupA, updAssoc, strTruthy, numTruthy, round2, round_eq]
  refine ⟨hlk, by decide, ?_⟩
  exact C10_averageRating_bounds c10St3
    (Reachable.step_postReview c10St2 0 0 (some 5) none
      (Reachable.step_signup (fun s => s) c10St1 (some "U") (some "u@example.com")
        (some "pw") none none
        (Reachable.step_addProduct St.init (some "A") (some 10) none none (some 5)
          Reachable.init)))
    0 _ hlk (by decide)

end Shop
